import Mathlib

/-
Verification of the weasel license auditor (src/license.go) against its
natural-language specification.  The Go program is shallowly embedded below:
pure helpers become Lean functions, the shared classification map becomes an
association list threaded through the passes, and the nondeterministic Go map
iteration order of the inheritance pass becomes an explicit `order` argument.
Helpers whose code is not under src/ (stripPunc, the multi-pattern matcher,
Uniq, Collide, the override table, the documented-licenses manifest and
filekind) are modelled from the spec, as marked on each definition.
-/

namespace Weasel

/-- A license tag is a plain string, as in the Go `type License string`;
suffix markers `~` (inherited) and `!` (undocumented) live inside the string. -/
abbrev License := String

/-- The four trivial tags of the reconciler (src/license.go lines 159-162). -/
def trivialTag (l : License) : Bool :=
  l = "Apache" || l = "Docs" || l = "Empty" || l = "Ignore"

/-! ### Tokenizer (src/license.go lines 242-252; stripPunc modelled from the spec) -/

/-- Split a character stream into whitespace-separated words, dropping empty
words, as bufio.ScanWords does in the scanner goroutine of identifyLicenses. -/
def splitWsAux : List Char → List Char → List (List Char)
  | [], acc => if acc.isEmpty then [] else [acc.reverse]
  | c :: cs, acc =>
    if c.isWhitespace then
      (if acc.isEmpty then splitWsAux cs [] else acc.reverse :: splitWsAux cs [])
    else splitWsAux cs (c :: acc)

/-- Modelled from the spec: `stripPunc` is missing from src/; §4.1 says it
strips leading and trailing punctuation from a word while preserving internal
punctuation.  Any non-alphanumeric character counts as punctuation. -/
def stripPuncL (cs : List Char) : List Char :=
  ((cs.dropWhile (fun c => !c.isAlphanum)).reverse.dropWhile (fun c => !c.isAlphanum)).reverse

/-- One word of the scanner loop: `strings.ToLower(stripPunc(s.Text()))`. -/
def normWord (cs : List Char) : String :=
  String.mk ((stripPuncL cs).map Char.toLower)

/-- The token sequence the scanner goroutine sends over the channel:
whitespace-split words, punctuation-stripped, lower-cased, empties dropped. -/
def tokenize (content : String) : List String :=
  ((splitWsAux content.data []).map normWord).filter (fun t => !t.data.isEmpty)

/-! ### Signature matcher (modelled from the spec) -/

/-- Modelled from the spec: `newMultiMatcher` and the signature corpus are
missing from src/.  §4.2: each signature is an ordered phrase of normalized
tokens kept with a per-signature cursor; a matching token advances the cursor,
a completed phrase fires the tag and resets the cursor, and a mismatch rearms
the cursor (re-checking the phrase head against the current token). -/
def sigStep (phrase : List String) (cursor : Nat) (tok : String) : Nat × Bool :=
  if phrase.get? cursor = some tok then
    (if cursor + 1 = phrase.length then (0, true) else (cursor + 1, false))
  else if phrase.get? 0 = some tok then
    (if phrase.length = 1 then (0, true) else (1, false))
  else (0, false)

/-- Advance every signature's cursor by one token; collect the tags whose
phrase completed at this token. -/
def stepCursors (tok : String) :
    List ((License × List String) × Nat) → List ((License × List String) × Nat) × List License
  | [] => ([], [])
  | (sig, c) :: rest =>
    match sigStep sig.2 c tok, stepCursors tok rest with
    | (c2, fired), (rest2, tags) =>
      ((sig, c2) :: rest2, if fired then sig.1 :: tags else tags)

/-- Run the matcher over the whole token stream, accumulating fired tags in
completion order. -/
def matcherRun : List String → List ((License × List String) × Nat) × List License → List License
  | [], st => st.2
  | t :: ts, st =>
    match stepCursors t st.1 with
    | (cs2, fired) => matcherRun ts (cs2, st.2 ++ fired)

/-- Modelled from the spec: `Uniq` is missing from src/; §4.3 step 3 says it
collapses a tag list to a set while preserving first-seen order. -/
def Uniq (ls : List License) : List License :=
  ls.foldl (fun acc l => if l ∈ acc then acc else acc ++ [l]) []

/-- Modelled from the spec: `Collide` is missing from src/; §4.3 step 4 says a
genuine conflict retains every member tag (nothing is merged away), and exact
agreement between override and detection was already collapsed by `Uniq`. -/
def Collide (ls : List License) : List License := ls

/-- The tag set a token stream yields: every signature whose phrase occurs,
first-seen order, deduplicated. -/
def multiMatch (sigs : List (License × List String)) (toks : List String) : List License :=
  Uniq (matcherRun toks (sigs.map (fun s => (s, 0)), []))

/-! ### Per-file classification (src/license.go lines 104-128, 230-256) -/

/-- One discovered file as the walk callback sees it: its path, its size from
`info.Size()`, an open-time error if `os.Open` fails, the content readable
before any mid-stream failure, and the mid-stream read error (if any) that
makes `bufio.Scanner.Scan` return false early. -/
structure FileInput where
  path : String
  size : Nat
  openErr : Option String
  content : String
  readErr : Option String

/-- identifyLicenses (lines 239-256): the scanner goroutine tokenizes the
readable content and closes the channel; `s.Err()` is never consulted, and the
function returns a nil error unconditionally (line 255), so the mid-stream
read error `readErr` influences neither component of the result. -/
def identifyLicenses (sigs : List (License × List String)) (content : String)
    (_readErr : Option String) : List License × Option String :=
  (multiMatch sigs (tokenize content), none)

/-- fileLicenses (lines 230-237): an open-time failure is returned as an
error; otherwise the result of identifyLicenses is passed through. -/
def fileLicenses (sigs : List (License × List String)) (fi : FileInput) :
    Except String (List License) :=
  match fi.openErr with
  | some e => Except.error e
  | none =>
    match identifyLicenses sigs fi.content fi.readErr with
    | (ls, none) => Except.ok ls
    | (_, some e) => Except.error e

/-- The read-only configuration: the signature corpus, the override table and
the manifest (`documents` is documented.Documents, `extras` is
documented.Extra()) and the filekind fallback.  All of these are loaded by
code missing from src/ and are modelled from §3 and §6 of the spec as opaque
inputs. -/
structure Config where
  sigs : List (License × List String)
  override : String → List License
  documents : String → Bool
  extras : List String
  filekind : String → String

/-- The walk callback's classification of one file (lines 104-128): a
zero-size file is tagged Empty outright (overrides and detection are skipped);
otherwise the override tags for the path are merged with the detection result
(or with the error tag "Error: <msg>!" built on line 120), then Uniq and
Collide are applied. -/
def classifyFile (cfg : Config) (fi : FileInput) : List License :=
  if fi.size = 0 then ["Empty"]
  else
    match fileLicenses cfg.sigs fi with
    | Except.error e => Collide (Uniq (cfg.override fi.path ++ ["Error: " ++ e ++ "!"]))
    | Except.ok ls => Collide (Uniq (cfg.override fi.path ++ ls))

/-! ### The classification table and the global passes (src/license.go lines 84-178) -/

/-- The shared `files` map, as an association list from path to tag list. -/
abbrev Table := List (String × List License)

/-- Go map read `files[k]` (a missing key reads as the empty list). -/
def lookupT : Table → String → List License
  | [], _ => []
  | p :: rest, k => if p.1 = k then p.2 else lookupT rest k

/-- Go map write `files[k] = v` for a key already present. -/
def updateT : Table → String → List License → Table
  | [], _, _ => []
  | p :: rest, k, v => (if p.1 = k then (k, v) else p) :: updateT rest k v

/-- The table after every walker has finished: one entry per discovered file. -/
def rawTable (cfg : Config) (fis : List FileInput) : Table :=
  fis.map (fun fi => (fi.path, classifyFile cfg fi))

/-- The conventional license file names tried in each ancestor (line 142). -/
def licNames : List String :=
  ["LICENSE", "LICENCE", "LICENSE.md", "LICENCE.md", "LICENSE.txt", "LICENCE.txt"]

/-- strings.Split(name, "/"): keep empty parts, always at least one part. -/
def splitCharAux (sep : Char) : List Char → List Char → List (List Char)
  | [], acc => [acc.reverse]
  | c :: cs, acc =>
    if c = sep then acc.reverse :: splitCharAux sep cs [] else splitCharAux sep cs (c :: acc)

/-- The path split on '/' as in `strings.Split(name, "/")` (line 140). -/
def splitSlash (s : String) : List String :=
  (splitCharAux '/' s.data []).map String.mk

/-- strings.Join(parts, "/") (line 143). -/
def joinSlash : List String → String
  | [] => ""
  | [s] => s
  | s :: rest => s ++ "/" ++ joinSlash rest

/-- The candidate license-file paths the inheritance loop probes for `name`,
in probe order: the index i runs from len(parts)-1 down to 1 (the walk root,
i = 0, is never reached), and within one ancestor the six names of `licNames`
are tried in order (lines 141-143). -/
def ancestorLicPaths (name : String) : List String :=
  ((List.range ((splitSlash name).length - 1)).reverse.map (fun j => j + 1)).flatMap
    (fun i => licNames.map (fun ln => joinSlash ((splitSlash name).take i) ++ "/" ++ ln))

/-- The tags a file inherits from an ancestor license file's tags: everything
except the bare Docs tag, each with "~" appended (lines 145-149). -/
def inheritTags (srcTags : List License) : List License :=
  (srcTags.filter (fun l => l ≠ "Docs")).map (fun l => l ++ "~")

/-- One iteration of the forUnknownFiles loop (lines 138-154) for the file
`name`: if its classification is empty, the first probed candidate path with a
non-empty classification in the current table supplies the inherited tags. -/
def inheritStep (t : Table) (name : String) : Table :=
  if lookupT t name = [] then
    match (ancestorLicPaths name).find? (fun p => !(lookupT t p).isEmpty) with
    | some p => updateT t name (lookupT t name ++ inheritTags (lookupT t p))
    | none => t
  else t

/-- The whole inheritance pass: the Go code ranges over the map in an
unspecified order while writing into it, so the visiting order is an explicit
argument (a permutation of the table's keys). -/
def inheritPass (order : List String) (t : Table) : Table :=
  order.foldl inheritStep t

/-- The reconciler's per-file marking (lines 157-169): when a non-empty
classification is more than one tag or its first tag is not trivial, and the
manifest does not document the path, every non-trivial tag gets "!". -/
def markUndocumented (documents : Bool) : List License → List License
  | [] => []
  | l :: ls =>
    if (!ls.isEmpty || !trivialTag l) && !documents then
      (l :: ls).map (fun x => if trivialTag x then x else x ++ "!")
    else l :: ls

/-- The reconciler pass over the whole table. -/
def markPass (documents : String → Bool) (t : Table) : Table :=
  t.map (fun p => (p.1, markUndocumented (documents p.1) p.2))

/-- The filekind fallback pass (lines 171-178): a still-empty classification
becomes the single filekind tag when filekind returns a non-empty name.
filekind itself is missing from src/ and modelled from spec §6 as an opaque
function returning "" when it has no guess. -/
def kindPass (filekind : String → String) (t : Table) : Table :=
  t.map (fun p =>
    (p.1, if p.2.isEmpty then (if filekind p.1 = "" then [] else [filekind p.1]) else p.2))

/-! ### Reporter and verdict (src/license.go lines 180-227) -/

/-- Whether the reporter treats a file as undocumented: an empty
classification prints Unknown! and is undocumented; otherwise only the FIRST
tag is tested for a trailing '!' (lines 192-199). -/
def fileUndoc : List License → Bool
  | [] => true
  | l :: _ => l.data.getLast? = some '!'

/-- Whether a tag list suppresses its file: the bare Ignore tag anywhere
(lines 197 and 201-203). -/
def fileIgnore (ls : List License) : Bool :=
  decide (("Ignore" : License) ∈ ls)

/-- Whether the reporter prints the file's line (lines 208-216). -/
def printsFile (quiet : Bool) (ls : List License) : Bool :=
  !fileIgnore ls && (fileUndoc ls || !quiet)

/-- The failure flag after the report loop and the extra-entry loop
(lines 186-222): some non-ignored file is undocumented, or the manifest has
an orphaned entry. -/
def failedFlag (t : Table) (extras : List String) : Bool :=
  t.any (fun p => !fileIgnore p.2 && fileUndoc p.2) || !extras.isEmpty

/-- os.Exit(1) on failure, os.Exit(0) otherwise (lines 224-227). -/
def exitCode (failed : Bool) : Nat :=
  if failed then 1 else 0

/-- The final classification table: raw per-file classification, then the
inheritance pass in the given map-iteration order, then the reconciler, then
the filekind fallback. -/
def runWeasel (cfg : Config) (fis : List FileInput) (order : List String) : Table :=
  kindPass cfg.filekind (markPass cfg.documents (inheritPass order (rawTable cfg fis)))

/-- The process exit status of a whole run. -/
def runExit (cfg : Config) (fis : List FileInput) (order : List String) : Nat :=
  exitCode (failedFlag (runWeasel cfg fis order) cfg.extras)

/-! ### Helper lemmas -/

lemma endsChar_append (a b : String) (c : Char) (hb : b.data = [c]) :
    (a ++ b).data.getLast? = some c := by
  rw [String.data_append, hb, List.getLast?_concat]

lemma append_ne_of_getLast (a b s : String) (c : Char) (hb : b.data = [c])
    (h : s.data.getLast? ≠ some c) : a ++ b ≠ s := by
  intro he
  exact h (he ▸ endsChar_append a b c hb)

lemma tilde_not_trivial (a : String) : trivialTag (a ++ "~") = false := by
  have h1 : a ++ "~" ≠ "Apache" := append_ne_of_getLast a "~" "Apache" '~' rfl (by decide)
  have h2 : a ++ "~" ≠ "Docs" := append_ne_of_getLast a "~" "Docs" '~' rfl (by decide)
  have h3 : a ++ "~" ≠ "Empty" := append_ne_of_getLast a "~" "Empty" '~' rfl (by decide)
  have h4 : a ++ "~" ≠ "Ignore" := append_ne_of_getLast a "~" "Ignore" '~' rfl (by decide)
  simp [trivialTag, h1, h2, h3, h4]

lemma bang_ne_ignore (a : String) : a ++ "!" ≠ "Ignore" :=
  append_ne_of_getLast a "!" "Ignore" '!' rfl (by decide)

lemma endsBang_append (a : String) : (a ++ "!").data.getLast? = some '!' :=
  endsChar_append a "!" '!' rfl

lemma lookupT_update_ne (t : Table) (n k : String) (v : List License) (h : k ≠ n) :
    lookupT (updateT t n v) k = lookupT t k := by
  induction t with
  | nil => rfl
  | cons p rest ih =>
    show lookupT ((if p.1 = n then (n, v) else p) :: updateT rest n v) k = _
    by_cases hp : p.1 = n
    · rw [if_pos hp]
      show (if n = k then v else lookupT (updateT rest n v) k) = _
      rw [if_neg (fun he => h he.symm), ih]
      show _ = (if p.1 = k then p.2 else lookupT rest k)
      rw [if_neg (fun he => h (hp ▸ he).symm)]
    · rw [if_neg hp]
      show (if p.1 = k then p.2 else lookupT (updateT rest n v) k) = _
      show _ = (if p.1 = k then p.2 else lookupT rest k)
      by_cases hk : p.1 = k
      · rw [if_pos hk, if_pos hk]
      · rw [if_neg hk, if_neg hk, ih]

lemma lookupT_inheritStep_of_ne_nil (t : Table) (n k : String) (h : lookupT t k ≠ []) :
    lookupT (inheritStep t n) k = lookupT t k := by
  unfold inheritStep
  by_cases h0 : lookupT t n = []
  · rw [if_pos h0]
    cases hf : (ancestorLicPaths n).find? (fun p => !(lookupT t p).isEmpty) with
    | none => rfl
    | some p =>
      have hkn : k ≠ n := by
        intro he
        rw [he] at h
        exact h h0
      exact lookupT_update_ne t n k _ hkn
  · rw [if_neg h0]

lemma lookupT_inheritPass_of_ne_nil (order : List String) (t : Table) (k : String)
    (h : lookupT t k ≠ []) : lookupT (inheritPass order t) k = lookupT t k := by
  induction order generalizing t with
  | nil => rfl
  | cons n ns ih =>
    have hs := lookupT_inheritStep_of_ne_nil t n k h
    have h2 : lookupT (inheritStep t n) k ≠ [] := by
      rw [hs]
      exact h
    calc lookupT (inheritPass ns (inheritStep t n)) k
        = lookupT (inheritStep t n) k := ih (inheritStep t n) h2
      _ = lookupT t k := hs

lemma lookupT_markPass (d : String → Bool) (t : Table) (k : String) :
    lookupT (markPass d t) k = markUndocumented (d k) (lookupT t k) := by
  induction t with
  | nil => rfl
  | cons p rest ih =>
    show (if p.1 = k then markUndocumented (d p.1) p.2 else lookupT (markPass d rest) k)
        = markUndocumented (d k) (if p.1 = k then p.2 else lookupT rest k)
    by_cases hp : p.1 = k
    · rw [if_pos hp, if_pos hp, hp]
    · rw [if_neg hp, if_neg hp, ih]

lemma lookupT_kindPass_of_ne_nil (f : String → String) (t : Table) (k : String)
    (h : lookupT t k ≠ []) : lookupT (kindPass f t) k = lookupT t k := by
  induction t with
  | nil => rfl
  | cons p rest ih =>
    show (if p.1 = k then (if p.2.isEmpty then (if f p.1 = "" then [] else [f p.1]) else p.2)
          else lookupT (kindPass f rest) k)
        = (if p.1 = k then p.2 else lookupT rest k)
    by_cases hp : p.1 = k
    · rw [if_pos hp, if_pos hp]
      have h2 : p.2 ≠ [] := by
        intro he
        apply h
        show (if p.1 = k then p.2 else lookupT rest k) = []
        rw [if_pos hp, he]
      have h3 : p.2.isEmpty = false := by
        cases hq : p.2 with
        | nil => exact absurd hq h2
        | cons a as => rfl
      simp [h3]
    · have h4 : lookupT rest k ≠ [] := by
        intro he
        apply h
        show (if p.1 = k then p.2 else lookupT rest k) = []
        rw [if_neg hp, he]
      rw [if_neg hp, if_neg hp, ih h4]

lemma lookupT_rawTable (cfg : Config) (fis : List FileInput) (fi : FileInput)
    (hmem : fi ∈ fis) (hnd : (fis.map FileInput.path).Nodup) :
    lookupT (rawTable cfg fis) fi.path = classifyFile cfg fi := by
  induction fis with
  | nil => cases hmem
  | cons g rest ih =>
    have hnd2 : (rest.map FileInput.path).Nodup := (List.nodup_cons.mp hnd).2
    have hgn : g.path ∉ rest.map FileInput.path := (List.nodup_cons.mp hnd).1
    show (if g.path = fi.path then classifyFile cfg g else lookupT (rawTable cfg rest) fi.path)
        = classifyFile cfg fi
    by_cases hp : g.path = fi.path
    · rw [if_pos hp]
      cases List.mem_cons.mp hmem with
      | inl he => rw [he]
      | inr hr =>
        have hin : g.path ∈ rest.map FileInput.path := by
          rw [hp]
          exact List.mem_map_of_mem FileInput.path hr
        exact absurd hin hgn
    · rw [if_neg hp]
      cases List.mem_cons.mp hmem with
      | inl he => exact absurd (congrArg FileInput.path he.symm) hp
      | inr hr => exact ih hr hnd2

lemma markUndocumented_empty_tag (d : Bool) : markUndocumented d ["Empty"] = ["Empty"] := by
  cases d <;> rfl

/-! ### Claim theorems -/

/-- C8 (confirmed): a discovered file of zero bytes is classified exactly
[Empty] with no suffixes, whatever the configuration (override table,
manifest, filekind), the other files and the inheritance order; [Empty] is
neither undocumented nor ignored in the report, so such a file never
contributes to failure. -/
theorem c8_zero_size_is_empty (cfg : Config) (fis : List FileInput) (order : List String)
    (fi : FileInput) (hmem : fi ∈ fis) (hnd : (fis.map FileInput.path).Nodup)
    (hsize : fi.size = 0) :
    lookupT (runWeasel cfg fis order) fi.path = ["Empty"] ∧
    fileUndoc ["Empty"] = false ∧ fileIgnore ["Empty"] = false := by
  have hclass : classifyFile cfg fi = ["Empty"] := by
    unfold classifyFile
    rw [if_pos hsize]
  have hraw : lookupT (rawTable cfg fis) fi.path = ["Empty"] := by
    rw [lookupT_rawTable cfg fis fi hmem hnd, hclass]
  have hne : lookupT (rawTable cfg fis) fi.path ≠ [] := by
    rw [hraw]
    exact fun h => List.noConfusion h
  have hinh : lookupT (inheritPass order (rawTable cfg fis)) fi.path = ["Empty"] := by
    rw [lookupT_inheritPass_of_ne_nil order _ _ hne, hraw]
  have hmark : lookupT (markPass cfg.documents (inheritPass order (rawTable cfg fis)))
      fi.path = ["Empty"] := by
    rw [lookupT_markPass, hinh, markUndocumented_empty_tag]
  have hne2 : lookupT (markPass cfg.documents (inheritPass order (rawTable cfg fis)))
      fi.path ≠ [] := by
    rw [hmark]
    exact fun h => List.noConfusion h
  refine ⟨?_, rfl, rfl⟩
  unfold runWeasel
  rw [lookupT_kindPass_of_ne_nil _ _ _ hne2, hmark]

/-- A zero-byte file under an adversarial configuration: path undocumented,
an orphaned manifest entry present, filekind guessing Image, an override for
the path - none of which may affect the [Empty] classification. -/
def c8cfg : Config := ⟨[], fun _ => ["Docs"], fun _ => false, ["orphan"], fun _ => "Image"⟩

def c8fi : FileInput := ⟨"zero.bin", 0, none, "", none⟩

/-- Witness for C8 at the concrete zero-byte file zero.bin. -/
theorem c8_zero_size_is_empty_witness :
    lookupT (runWeasel c8cfg [c8fi] ["zero.bin"]) "zero.bin" = ["Empty"] ∧
    fileUndoc ["Empty"] = false ∧ fileIgnore ["Empty"] = false :=
  c8_zero_size_is_empty c8cfg [c8fi] ["zero.bin"] c8fi (List.mem_singleton.mpr rfl)
    (List.nodup_singleton _) rfl

/-- C9 (confirmed): per-file merging starts from the override tags, appends
the detection result, then deduplicates keeping first-seen order: a readable
non-empty file forced to [Docs] by the override table whose content matches
exactly the Apache signature is classified [Docs, Apache] - the override adds
a forced tag but does not suppress detection. -/
theorem c9_override_then_detection (cfg : Config) (fi : FileInput)
    (hsize : fi.size ≠ 0) (hopen : fi.openErr = none)
    (hov : cfg.override fi.path = ["Docs"])
    (hdet : multiMatch cfg.sigs (tokenize fi.content) = ["Apache"]) :
    classifyFile cfg fi = ["Docs", "Apache"] := by
  unfold classifyFile fileLicenses identifyLicenses
  rw [if_neg hsize, hopen, hdet, hov]
  rfl

def c9cfg : Config := ⟨[("Apache", ["apache", "license"])],
  fun p => if p = "doc.md" then ["Docs"] else [], fun _ => true, [], fun _ => ""⟩

def c9fi : FileInput := ⟨"doc.md", 20, none, "Apache License.", none⟩

/-- Witness for C9: doc.md is forced to [Docs] and its content matches the
Apache signature, so its classification keeps both tags in merge order. -/
theorem c9_override_then_detection_witness :
    classifyFile c9cfg c9fi = ["Docs", "Apache"] :=
  c9_override_then_detection c9cfg c9fi (by decide) rfl rfl rfl

lemma inheritTags_shape (srcTags : List License) :
    ∀ b ∈ inheritTags srcTags, ∃ a, a ∈ srcTags ∧ b = a ++ "~" := by
  intro b hb
  simp only [inheritTags, List.mem_map, List.mem_filter] at hb
  obtain ⟨a, ⟨ha, _⟩, hq⟩ := hb
  exact ⟨a, ha, hq.symm⟩

lemma mark_all_nontrivial (ls : List License)
    (h : ∀ b ∈ ls, trivialTag b = false) :
    markUndocumented false ls = ls.map (fun x => x ++ "!") := by
  cases ls with
  | nil => rfl
  | cons l rest =>
    have hl : trivialTag l = false := h l (List.mem_cons_self l rest)
    have hmap : ∀ x ∈ l :: rest, (if trivialTag x then x else x ++ "!") = x ++ "!" := by
      intro x hx
      rw [h x hx]
      rfl
    simp only [markUndocumented, hl, Bool.not_false, Bool.or_true, Bool.and_true, if_true]
    exact List.map_congr_left hmap

/-- C10 (confirmed): every tag a file receives through directory inheritance
ends in '~' and therefore never equals one of the four bare trivial tags; so
when a file classified solely by inheritance is undocumented, every one of its
tags is additionally marked '!', the reporter treats it as undocumented, the
Ignore suppression never applies to it, and any table containing it makes the
run fail - an inherited classification is never satisfactory on its own. -/
theorem c10_inherited_never_satisfactory (srcTags : List License) :
    (∀ b ∈ inheritTags srcTags, trivialTag b = false) ∧
    (∀ b ∈ markUndocumented false (inheritTags srcTags), b.data.getLast? = some '!') ∧
    fileUndoc (markUndocumented false (inheritTags srcTags)) = true ∧
    fileIgnore (markUndocumented false (inheritTags srcTags)) = false ∧
    (∀ (t : Table) (extras : List String) (n : String),
      (n, markUndocumented false (inheritTags srcTags)) ∈ t → failedFlag t extras = true) := by
  have h1 : ∀ b ∈ inheritTags srcTags, trivialTag b = false := by
    intro b hb
    obtain ⟨a, _, hq⟩ := inheritTags_shape srcTags b hb
    rw [hq]
    exact tilde_not_trivial a
  have hmark : markUndocumented false (inheritTags srcTags)
      = (inheritTags srcTags).map (fun x => x ++ "!") := mark_all_nontrivial _ h1
  have h2 : ∀ b ∈ markUndocumented false (inheritTags srcTags),
      b.data.getLast? = some '!' := by
    rw [hmark]
    intro b hb
    obtain ⟨x, _, hx⟩ := List.mem_map.mp hb
    rw [← hx]
    exact endsBang_append x
  have h3 : fileUndoc (markUndocumented false (inheritTags srcTags)) = true := by
    rw [hmark]
    cases hI : inheritTags srcTags with
    | nil => rfl
    | cons x xs => simp [fileUndoc, endsBang_append]
  have h4 : fileIgnore (markUndocumented false (inheritTags srcTags)) = false := by
    rw [hmark]
    simp only [fileIgnore, decide_eq_false_iff_not]
    intro hm
    obtain ⟨x, _, hx⟩ := List.mem_map.mp hm
    exact bang_ne_ignore x hx
  refine ⟨h1, h2, h3, h4, ?_⟩
  intro t extras n hmem
  have hpred : (!fileIgnore (markUndocumented false (inheritTags srcTags)) &&
      fileUndoc (markUndocumented false (inheritTags srcTags))) = true := by
    rw [h3, h4]
    rfl
  unfold failedFlag
  rw [Bool.or_eq_true]
  left
  exact List.any_eq_true.mpr ⟨(n, markUndocumented false (inheritTags srcTags)), hmem, hpred⟩

def c6cfg : Config := ⟨[], fun _ => [], fun _ => false, [], fun _ => ""⟩

def c6fi : FileInput := ⟨"broken.txt", 3, some "boom", "", none⟩

/-- C6 (corrected) counterexample: the file broken.txt fails to open, so it is
classified with the error tag "Error: boom!", which already ends in '!'; its
path being undocumented, the reconciler appends a second '!', and the final
tag ends with the doubled marker "!!" - refuting the claim that no tag ever
ends with a doubled marker. -/
theorem c6_counterexample :
    lookupT (runWeasel c6cfg [c6fi] ["broken.txt"]) "broken.txt"
      = ["Error: boom" ++ "!" ++ "!"] := rfl

/-- C6 (corrected) amended: each pass appends its marker at most once per tag -
the reconciler maps every tag to itself or to itself followed by a single '!',
and every inherited tag is an ancestor tag followed by a single '~' - but a
tag may already end in the same marker before the pass (error tags are created
ending in '!'), so a final tag can still end in a doubled marker. -/
theorem c6_amended (d : Bool) (ls srcTags : List License) :
    List.Forall₂ (fun a b => b = a ∨ b = a ++ "!") ls (markUndocumented d ls) ∧
    (∀ b ∈ inheritTags srcTags, ∃ a, a ∈ srcTags ∧ b = a ++ "~") := by
  constructor
  · cases ls with
    | nil => exact List.Forall₂.nil
    | cons l rest =>
      simp only [markUndocumented]
      split
      · rw [List.forall₂_map_right_iff, List.forall₂_same]
        intro x _
        by_cases hx : trivialTag x
        · rw [if_pos hx]
          exact Or.inl rfl
        · rw [if_neg hx]
          exact Or.inr rfl
      · exact List.forall₂_same.mpr (fun x _ => Or.inl rfl)
  · exact inheritTags_shape srcTags

lemma fileUndoc_cons_bang (x : String) (rest : List License) :
    fileUndoc ((x ++ "!") :: rest) = true := by
  simp [fileUndoc, endsBang_append]

lemma fileUndoc_mark_of_endsBang (d : Bool) (l : License) (rest : List License)
    (h : l.data.getLast? = some '!') :
    fileUndoc (markUndocumented d (l :: rest)) = true := by
  simp only [markUndocumented]
  split
  · rw [List.map_cons]
    by_cases hx : trivialTag l
    · simp [fileUndoc, hx, h]
    · simp [fileUndoc, hx, endsBang_append]
  · simp [fileUndoc, h]

def c7cfg : Config := ⟨[], fun p => if p = "forced.go" then ["Docs"] else [],
  fun _ => true, [], fun _ => ""⟩

def c7fi : FileInput := ⟨"forced.go", 3, some "boom", "", none⟩

/-- C7 (corrected) counterexample: forced.go fails to open and gets the error
tag behind its override tag Docs; its path is documented, so nothing is
marked, the reporter tests only the first tag (Docs, no '!'), the failure flag
stays unset and the run exits 0 - refuting the claim that an error-tagged file
always counts as a failure. -/
theorem c7_counterexample :
    lookupT (runWeasel c7cfg [c7fi] ["forced.go"]) "forced.go"
      = ["Docs", "Error: boom" ++ "!"] ∧
    runExit c7cfg [c7fi] ["forced.go"] = 0 := ⟨rfl, rfl⟩

/-- C7 (corrected) amended: a file whose FIRST tag is a read-error tag is
reported undocumented whatever the manifest says (the error tag is created
already ending in '!', and marking can only keep or extend that suffix), and
any non-ignored undocumented file in the table makes the run fail; an error
tag sitting behind an override tag, however, does not set the failure flag. -/
theorem c7_amended (e : String) (rest : List License) (d : Bool) :
    fileUndoc (markUndocumented d (("Error: " ++ e ++ "!") :: rest)) = true ∧
    (∀ (t : Table) (extras : List String) (n : String) (ls : List License),
      (n, ls) ∈ t → fileIgnore ls = false → fileUndoc ls = true →
      failedFlag t extras = true) := by
  constructor
  · exact fileUndoc_mark_of_endsBang d _ rest (endsBang_append ("Error: " ++ e))
  · intro t extras n ls hmem hig hud
    unfold failedFlag
    rw [Bool.or_eq_true]
    left
    refine List.any_eq_true.mpr ⟨(n, ls), hmem, ?_⟩
    rw [hig, hud]
    rfl

def c2cfg : Config := ⟨[("Apache", ["apache", "license"]),
  ("GPL", ["gnu", "general", "public", "license"])],
  fun _ => [], fun _ => false, [], fun _ => ""⟩

def c2fi : FileInput := ⟨"conflict.txt", 50, none,
  "Apache License and GNU General Public License", none⟩

/-- C2 (corrected) counterexample: conflict.txt matches both the Apache and
the GPL signatures and its path is undocumented, yet its final classification
is ["Apache", "GPL!"] and not ["Apache!", "GPL!"]: the trivial Apache tag is
never marked undocumented by the reconciler. -/
theorem c2_counterexample :
    lookupT (runWeasel c2cfg [c2fi] ["conflict.txt"]) "conflict.txt"
      = ["Apache", "GPL" ++ "!"] ∧
    (["Apache", "GPL" ++ "!"] : List License) ≠ ["Apache" ++ "!", "GPL" ++ "!"] :=
  ⟨rfl, by decide⟩

/-- C2 (corrected) amended: an undocumented two-tag conflict ["Apache", o]
with o non-trivial is marked as ["Apache", o ++ "!"]: both tags are retained,
the non-trivial tag gets the undocumented marker, and the Apache tag keeps its
bare form. -/
theorem c2_amended (o : License) (ho : trivialTag o = false) :
    markUndocumented false ["Apache", o] = ["Apache", o ++ "!"] := by
  have hA : trivialTag "Apache" = true := rfl
  simp [markUndocumented, ho, hA]

/-- Witness for the amended C2 at the concrete conflicting tag GPL. -/
theorem c2_amended_witness :
    markUndocumented false ["Apache", "GPL"] = ["Apache", "GPL" ++ "!"] :=
  c2_amended "GPL" rfl

def c1cfg : Config := ⟨[("GPL", ["gnu", "general", "public", "license"])],
  fun p => if p = "a.go" then ["Docs"] else [], fun _ => false, [], fun _ => ""⟩

def c1fi : FileInput := ⟨"a.go", 40, none, "GNU General Public License", none⟩

/-- C1 (corrected) counterexample: after all passes a.go carries the
undocumented tag "GPL!" (its last character is '!') and no Ignore tag, the
manifest has no orphaned entry, yet the run exits 0: the reporter tests only
the FIRST tag for a trailing '!', so the undocumented tag sitting behind the
override tag Docs never sets the failure flag - refuting the claimed "if and
only if". -/
theorem c1_counterexample :
    lookupT (runWeasel c1cfg [c1fi] ["a.go"]) "a.go" = ["Docs", "GPL" ++ "!"] ∧
    ("GPL" ++ "!").data.getLast? = some '!' ∧
    fileIgnore ["Docs", "GPL" ++ "!"] = false ∧
    runExit c1cfg [c1fi] ["a.go"] = 0 := ⟨rfl, rfl, rfl, rfl⟩

/-- C1 (corrected) amended: the run exits non-zero iff, after all passes, some
file whose tag set lacks the bare Ignore tag has an empty classification
(reported Unknown!) or a FIRST tag ending in '!', or the manifest has an
orphaned entry; a file whose tag set contains the bare Ignore tag anywhere
never contributes to failure and is never printed, quiet mode or not. -/
theorem c1_amended (cfg : Config) (fis : List FileInput) (order : List String) :
    (runExit cfg fis order ≠ 0 ↔
      ((∃ p ∈ runWeasel cfg fis order, fileIgnore p.2 = false ∧ fileUndoc p.2 = true) ∨
        cfg.extras ≠ [])) ∧
    (∀ p ∈ runWeasel cfg fis order, fileIgnore p.2 = true →
      printsFile true p.2 = false ∧ printsFile false p.2 = false ∧
      (!fileIgnore p.2 && fileUndoc p.2) = false) := by
  constructor
  · have hE : ∀ b : Bool, exitCode b ≠ 0 ↔ b = true := by
      intro b
      cases b <;> simp [exitCode]
    unfold runExit
    rw [hE]
    simp [failedFlag, List.any_eq_true]
  · intro p _ hig
    refine ⟨?_, ?_, ?_⟩ <;> simp [printsFile, hig]

def c3cfg : Config := ⟨[("Apache", ["apache", "license"])], fun _ => [],
  fun _ => false, [], fun _ => ""⟩

def c3fi : FileInput := ⟨"data.txt", 100, none, "hello", some "unexpected read failure"⟩

/-- C3 (code_bug): the scanner goroutine of identifyLicenses stops when Scan
returns false and closes the channel without ever consulting the scanner's
error, and line 255 returns a nil error unconditionally; so the non-empty file
data.txt, readable up to the unmatched word "hello" before its stream fails,
is classified with the empty list - the mid-stream read error is silently
hidden as an unknown classification instead of surfacing as an error tag. -/
theorem c3_midstream_error_hidden :
    classifyFile c3cfg c3fi = [] ∧
    (identifyLicenses c3cfg.sigs c3fi.content c3fi.readErr).2 = none ∧
    c3fi.readErr = some "unexpected read failure" ∧ c3fi.size ≠ 0 :=
  ⟨rfl, rfl, rfl, by decide⟩

/-- C4 (corrected) counterexample: the walk root's LICENSE classifies as
[Apache] and dir/a.go has an empty classification, yet inheritance leaves
dir/a.go empty in either visiting order: the loop index runs down only to 1,
so the repository root's license file is never probed - refuting "including
the repository root". -/
theorem c4_counterexample :
    lookupT (inheritPass ["LICENSE", "dir/a.go"]
      [("LICENSE", ["Apache"]), ("dir/a.go", [])]) "dir/a.go" = [] ∧
    lookupT (inheritPass ["dir/a.go", "LICENSE"]
      [("LICENSE", ["Apache"]), ("dir/a.go", [])]) "dir/a.go" = [] := ⟨rfl, rfl⟩

/-- C4 (corrected) amended: only strict ancestor directories below the walk
root are consulted, nearest first: whatever the root's LICENSE holds, the
file a/b/f.go with an empty classification inherits from the nearest
qualifying non-root ancestor license file (here a/b/LICENSE), copying every
tag except Docs with '~' appended and ignoring the farther ancestor a. -/
theorem c4_amended (rootTags : List License) :
    lookupT (inheritStep
      [("LICENSE", rootTags), ("a/LICENSE", ["GPL"]),
       ("a/b/LICENSE", ["Apache", "Docs"]), ("a/b/f.go", [])] "a/b/f.go")
      "a/b/f.go" = ["Apache" ++ "~"] := rfl

/-- C5 (code_bug): the inheritance pass reads the same table it is mutating,
so its outcome depends on the visiting order: over one raw table, two
permutations of the same key set give a/b/x.go the tag Apache~ in one order
and Apache~~ in the other (a/b/LICENSE, itself empty, is filled from
a/LICENSE and then used as a source), so identical inputs can produce
different reports across runs. -/
theorem c5_order_dependent :
    lookupT (inheritPass ["a/LICENSE", "a/b/x.go", "a/b/LICENSE"]
      [("a/LICENSE", ["Apache"]), ("a/b/LICENSE", []), ("a/b/x.go", [])]) "a/b/x.go"
      = ["Apache" ++ "~"] ∧
    lookupT (inheritPass ["a/LICENSE", "a/b/LICENSE", "a/b/x.go"]
      [("a/LICENSE", ["Apache"]), ("a/b/LICENSE", []), ("a/b/x.go", [])]) "a/b/x.go"
      = ["Apache" ++ "~" ++ "~"] ∧
    (["a/LICENSE", "a/b/x.go", "a/b/LICENSE"] : List String).Perm
      ["a/LICENSE", "a/b/LICENSE", "a/b/x.go"] ∧
    (["Apache" ++ "~"] : List License) ≠ ["Apache" ++ "~" ++ "~"] :=
  ⟨rfl, rfl, by decide, by decide⟩

end Weasel
